import Mathlib

/-!
Verification of the in-memory chunked time-series store of
`nsq_metrics_tank/aggmetric.go` (the `AggMetric` entity store).

The Go code works on `uint32` timestamps.  We model `uint32` values as `Nat`
together with explicit wrap-around operations `wsub`/`wmul` (reduction modulo
`2^32`) at exactly the spots where the Go code subtracts or multiplies
machine integers and wrap-around can occur.  Go panics (index out of range,
nil dereference, explicit `panic`) are modeled by `Option`: a `none` result
of an operation means the corresponding Go call faults.

The external `go-tsz` codec (`tsz.Series` / `tsz.Iter`) is not part of the
repository; per the spec it is an opaque append-only sequence codec with
`push`, `finish` and a forward time-ordered iterator, and is modeled as such.
Sample values are modeled as rationals; the store never computes with them.
-/

/-- The `uint32` modulus, `2^32`. -/
def W : Nat := 4294967296

/-- Go `uint32` subtraction `a - b` (wrap-around), for operands below `2^32`. -/
def wsub (a b : Nat) : Nat := (a + (W - b % W)) % W

/-- Go `uint32` multiplication `a * b` (wrap-around). -/
def wmul (a b : Nat) : Nat := (a * b) % W

/-- Model of the external `go-tsz` sequence codec (`tsz.Series`), per the
spec's codec contract: push a `(timestamp, value)` pair, finish (seal) the
sequence, and iterate the pushed pairs in time order.  `t0` is the aligned
start timestamp handed to `tsz.New`. -/
structure Series where
  t0 : Nat
  points : List (Nat × Rat)
  finished : Bool
deriving DecidableEq, Repr

/-- `tsz.New(t0)`: a fresh open sequence. -/
def Series.new (t0 : Nat) : Series := ⟨t0, [], false⟩

/-- `Series.Push(ts, val)`: append one pair. -/
def Series.push (s : Series) (ts : Nat) (val : Rat) : Series :=
  { s with points := s.points ++ [(ts, val)] }

/-- `Series.Finish()`: seal the sequence. -/
def Series.finish (s : Series) : Series := { s with finished := true }

/-- A `tsz.Iter`: the one-shot forward iterator, i.e. the pushed pairs in
push order (which is time order). -/
abbrev Iter := List (Nat × Rat)

/-- `Series.Iter()`: iterate the pushed pairs in time order. -/
def Series.iter (s : Series) : Iter := s.points

/-- One delivered aggregator signal: `agg.Signal(owner, ts)`.  `owner` is the
key of the signalling entity, `agg` identifies the subscribed aggregator. -/
structure SignalEvent where
  owner : String
  agg : Nat
  ts : Nat
deriving DecidableEq, Repr

/-- The `AggMetric` struct.  `chunks` is the fixed-size slice of optional
(`nil`-able) chunk pointers; `aggregators` holds opaque identifiers of the
subscribed aggregators, in subscription order. -/
structure AggMetric where
  key : String
  lastTs : Nat
  firstStart : Nat
  lastStart : Nat
  numChunks : Nat
  chunkSpan : Nat
  chunks : List (Option Series)
  aggregators : List Nat
deriving DecidableEq, Repr

/-- A Go loop reading `chunks[i]` for each index `i` in the given list, in
order; `none` models an index-out-of-range panic. -/
def collectIdx (chunks : List (Option Series)) : List Nat → Option (List (Option Series))
  | [] => some []
  | i :: is =>
    match chunks[i]? with
    | none => none
    | some c => (collectIdx chunks is).map (fun l => c :: l)

/-- `AggMetric.get(firstStart, lastStart)` (aggmetric.go lines 94-120):
resolve both aligned starts to ring slots, gather the candidate chunk
pointers (contiguous slice, or tail + head on wraparound), and return one
iterator per non-`nil` candidate.  `none` models a panicking execution
(slice bounds or index out of range). -/
def AggMetric.get (a : AggMetric) (firstStart lastStart : Nat) : Option (List Iter) :=
  let first := wsub firstStart a.firstStart / a.chunkSpan % a.numChunks
  let last := wsub lastStart a.firstStart / a.chunkSpan % a.numChunks
  let data : Option (List (Option Series)) :=
    if first ≤ last then
      if last + 1 ≤ a.chunks.length then
        some ((a.chunks.drop first).take (last + 1 - first))
      else none
    else
      match collectIdx a.chunks (List.range' first (a.numChunks - first)),
            collectIdx a.chunks (List.range' 0 (last + 1)) with
      | some endPart, some startPart => some (endPart ++ startPart)
      | _, _ => none
  data.map (fun l => l.filterMap (fun oc => oc.map Series.iter))

/-- The clamping of an untrusted request `[f, t)` into the retained window
(aggmetric.go lines 58-65), in `uint32` arithmetic exactly as the Go code
computes it.  Returns the resolved `(firstStart, lastStart)` pair that
`GetUnsafe` hands to `get`. -/
def AggMetric.requestWindow (a : AggMetric) (f t : Nat) : Nat × Nat :=
  let firstStart := f - f % a.chunkSpan
  let lastStart := (t - 1) - (t - 1) % a.chunkSpan
  let firstStart' :=
    if firstStart < wsub a.lastStart (wmul a.numChunks a.chunkSpan) then
      wsub a.lastStart (wmul a.numChunks a.chunkSpan)
    else firstStart
  let lastStart' := if a.lastStart < lastStart then a.lastStart else lastStart
  (firstStart', lastStart')

/-- `AggMetric.GetUnsafe(from, to)` (aggmetric.go lines 53-69): the
untrusted read path.  Outer `none` models a panic inside `get`;
`some (.error e)` is the returned Go error; `some (.ok l)` is success. -/
def AggMetric.GetUnsafe (a : AggMetric) (f t : Nat) : Option (Except String (List Iter)) :=
  if t ≤ f then some (Except.error "invalid request. to must > from")
  else (a.get (a.requestWindow f t).1 (a.requestWindow f t).2).map Except.ok

/-- `AggMetric.GetSafe(from, to)` (aggmetric.go lines 73-88): the trusted
read path.  `none` models a fault (any of the three explicit panics, or a
panic inside `get`). -/
def AggMetric.GetSafe (a : AggMetric) (f t : Nat) : Option (List Iter) :=
  if t ≤ f then none
  else
    let firstStart := f - f % a.chunkSpan
    let lastStart := (t - 1) - (t - 1) % a.chunkSpan
    if firstStart < wsub a.lastStart (wmul a.numChunks a.chunkSpan) then none
    else if a.lastStart < lastStart then none
    else a.get firstStart lastStart

/-- `NewAggMetric(key)` (aggmetric.go lines 122-132): `numChunks = 5`,
`chunkSpan = 60*2`, all other fields at their Go zero values, and a slice of
`numChunks` nil chunk pointers. -/
def NewAggMetric (key : String) : AggMetric :=
  { key := key
    lastTs := 0
    firstStart := 0
    lastStart := 0
    numChunks := 5
    chunkSpan := 60 * 2
    chunks := List.replicate 5 none
    aggregators := [] }

/-- `AggMetric.signalAggregators(ts)` (aggmetric.go lines 135-139): call
`agg.Signal(a, ts)` on every subscribed aggregator, in subscription order.
We record the calls as a list of `SignalEvent`s. -/
def AggMetric.signalAggregators (a : AggMetric) (ts : Nat) : List SignalEvent :=
  a.aggregators.map (fun g => ⟨a.key, g, ts⟩)

/-- `AggMetric.Add(ts, val)` (aggmetric.go lines 141-183).  Returns the new
store state together with the aggregator signals delivered during the call;
`none` models a panicking execution (index out of range or nil chunk
dereference).  A rejected sample (`ts <= a.lastTs`) only logs and returns:
state unchanged, no signals. -/
def AggMetric.Add (a : AggMetric) (ts : Nat) (val : Rat) : Option (AggMetric × List SignalEvent) :=
  if ts ≤ a.lastTs then some (a, [])
  else
    let start := ts - ts % a.chunkSpan
    if a.firstStart = 0 then
      let series := (Series.new start).push ts val
      if 0 < a.chunks.length then
        let a' := { a with firstStart := start, lastStart := start,
                           chunks := a.chunks.set 0 (some series) }
        some (a', a'.signalAggregators ts)
      else none
    else if start = a.lastStart then
      let index := wsub start a.firstStart / a.chunkSpan % a.numChunks
      match a.chunks[index]? with
      | some (some s) =>
        let a' := { a with chunks := a.chunks.set index (some (s.push ts val)) }
        some (a', a'.signalAggregators ts)
      | some none => none
      | none => none
    else
      let lastIndex := wsub a.lastStart a.firstStart / a.chunkSpan % a.numChunks
      match a.chunks[lastIndex]? with
      | some (some s) =>
        let a1 := { a with chunks := a.chunks.set lastIndex (some s.finish) }
        let series := (Series.new start).push ts val
        let newIndex := wsub start a.firstStart / a.chunkSpan % a.numChunks
        if newIndex < a1.chunks.length then
          let a' := { a1 with chunks := a1.chunks.set newIndex (some series) }
          some (a', a'.signalAggregators ts)
        else none
      | some none => none
      | none => none

/-- The candidate slot order as the spec states it: `[firstSlot..lastSlot]`
when `lastSlot ≥ firstSlot`, else `[firstSlot..numChunks-1] ++ [0..lastSlot]`. -/
def specSlots (num firstSlot lastSlot : Nat) : List Nat :=
  if firstSlot ≤ lastSlot then List.range' firstSlot (lastSlot + 1 - firstSlot)
  else List.range' firstSlot (num - firstSlot) ++ List.range' 0 (lastSlot + 1)

/-- Store states reachable from the constructor through (non-faulting)
`Add` calls. -/
inductive Reachable : AggMetric → Prop where
  | new (key : String) : Reachable (NewAggMetric key)
  | add {a a' : AggMetric} {ts : Nat} {val : Rat} {sigs : List SignalEvent} :
      Reachable a → a.Add ts val = some (a', sigs) → Reachable a'

/-! ### Example states used for concrete evaluations -/

/-- The store obtained from `NewAggMetric "a"` after `Add(130, 1)`:
`firstStart = lastStart = 120`, one open chunk at slot 0. -/
def mState : AggMetric :=
  ⟨"a", 0, 120, 120, 5, 120,
   [some ⟨120, [(130, 1)], false⟩, none, none, none, none], []⟩

/-- `NewAggMetric "a"` with one subscribed aggregator `7`. -/
def c4S0 : AggMetric := { NewAggMetric "a" with aggregators := [7] }

/-- `c4S0` after accepting `Add(130, 1)`. -/
def c4S1 : AggMetric :=
  ⟨"a", 0, 120, 120, 5, 120,
   [some ⟨120, [(130, 1)], false⟩, none, none, none, none], [7]⟩

/-- `c4S1` after the (out-of-order, yet accepted) `Add(50, 2)`: the slot-0
chunk got sealed and a chunk with aligned start 0 landed in slot 3. -/
def c4S2 : AggMetric :=
  ⟨"a", 0, 120, 120, 5, 120,
   [some ⟨120, [(130, 1)], true⟩, none, none, some ⟨0, [(50, 2)], false⟩, none], [7]⟩

/-- The window resolution of the untrusted read as the spec states it, with
`max` and `min` taken over the integers:
`(max(from - from mod span, lastStart - numChunks*span),
  min((to-1) - (to-1) mod span, lastStart))`. -/
def specCheckedWindow (a : AggMetric) (f t : Nat) : Int × Int :=
  (max ((f : Int) - (f : Int) % (a.chunkSpan : Int))
       ((a.lastStart : Int) - (a.numChunks : Int) * (a.chunkSpan : Int)),
   min (((t : Int) - 1) - ((t : Int) - 1) % (a.chunkSpan : Int)) (a.lastStart : Int))

/-- A store whose `lastStart` has advanced past one full retention window
(`numChunks * chunkSpan = 600 ≤ lastStart = 1200`), so no `uint32`
wrap-around occurs in the retention clamp. -/
def bigState : AggMetric :=
  ⟨"b", 0, 1200, 1200, 5, 120, List.replicate 5 none, []⟩

/-! ### Helper lemmas -/

/-- `uint32` subtraction agrees with `Nat` subtraction when it cannot
underflow. -/
theorem wsub_eq_sub {a b : Nat} (hba : b ≤ a) (ha : a < W) : wsub a b = a - b := by
  simp only [wsub, W] at *
  omega

/-- A bounds-respecting index loop collects exactly the indexed elements. -/
theorem collectIdx_eq_map (chunks : List (Option Series)) :
    ∀ is : List Nat, (∀ i ∈ is, i < chunks.length) →
      collectIdx chunks is = some (is.map (fun i => chunks.getD i none)) := by
  intro is
  induction is with
  | nil => intro _; rfl
  | cons i is ih =>
    intro h
    have hi : i < chunks.length := h i (by simp)
    have hrest := ih (fun j hj => h j (by simp [hj]))
    simp [collectIdx, List.getElem?_eq_getElem hi, hrest, List.getD_eq_getElem chunks none hi]

/-- An in-bounds contiguous slice is the elementwise read of its index
range. -/
theorem drop_take_eq_map_range' {α : Type} (l : List α) (d : α) (lo n : Nat)
    (h : lo + n ≤ l.length) :
    (l.drop lo).take n = (List.range' lo n).map (fun i => l.getD i d) := by
  apply List.ext_getElem
  · simp only [List.length_take, List.length_drop, List.length_map, List.length_range']
    omega
  · intro j h₁ h₂
    have hj : j < n := by
      simpa only [List.length_map, List.length_range'] using h₂
    have hlj : lo + j < l.length := by omega
    rw [List.getElem_take, List.getElem_drop, List.getElem_map, List.getElem_range'_1,
        List.getD_eq_getElem l d hlj]

/-- The core of the shared read path: under the length invariant, `get`
returns exactly one iterator per non-empty candidate slot, in the
spec-stated order. -/
theorem get_eq_slots (a : AggMetric) (fs ls : Nat)
    (hlen : a.chunks.length = a.numChunks) (hnum : 0 < a.numChunks) :
    a.get fs ls =
      some ((specSlots a.numChunks (wsub fs a.firstStart / a.chunkSpan % a.numChunks)
              (wsub ls a.firstStart / a.chunkSpan % a.numChunks)).filterMap
            (fun i => (a.chunks.getD i none).map Series.iter)) := by
  simp only [AggMetric.get, specSlots]
  set first := wsub fs a.firstStart / a.chunkSpan % a.numChunks with hfirst
  set last := wsub ls a.firstStart / a.chunkSpan % a.numChunks with hlast
  have hf : first < a.numChunks := Nat.mod_lt _ hnum
  have hl : last < a.numChunks := Nat.mod_lt _ hnum
  by_cases h : first ≤ last
  · rw [if_pos h, if_pos (by omega : last + 1 ≤ a.chunks.length),
        drop_take_eq_map_range' a.chunks none first (last + 1 - first) (by omega)]
    simp [List.filterMap_map, Function.comp_def, h]
  · rw [if_neg h,
        collectIdx_eq_map a.chunks (List.range' first (a.numChunks - first))
          (by intro i hi; rw [List.mem_range'_1] at hi; omega),
        collectIdx_eq_map a.chunks (List.range' 0 (last + 1))
          (by intro i hi; rw [List.mem_range'_1] at hi; omega)]
    simp [List.filterMap_map, List.filterMap_append, ← List.map_append, Function.comp_def, h]

/-- Every non-faulting `Add` preserves the chunk-array length and the
immutable geometry fields. -/
theorem Add_preserves_shape {a a' : AggMetric} {ts : Nat} {val : Rat}
    {sigs : List SignalEvent} (h : a.Add ts val = some (a', sigs)) :
    a'.chunks.length = a.chunks.length ∧ a'.numChunks = a.numChunks ∧
      a'.chunkSpan = a.chunkSpan := by
  simp only [AggMetric.Add] at h
  repeat' split at h
  all_goals simp_all
  all_goals
    obtain ⟨rfl, rfl⟩ := h
  all_goals simp [List.length_set]

/-- Every reachable store keeps the constructor's geometry: 5 chunk slots,
`numChunks = 5`, `chunkSpan = 120`. -/
theorem reachable_shape {a : AggMetric} (h : Reachable a) :
    a.chunks.length = 5 ∧ a.numChunks = 5 ∧ a.chunkSpan = 120 := by
  induction h with
  | new key => exact ⟨by simp [NewAggMetric], rfl, rfl⟩
  | add _ hadd ih =>
    obtain ⟨h1, h2, h3⟩ := Add_preserves_shape hadd
    exact ⟨h1.trans ih.1, h2.trans ih.2.1, h3.trans ih.2.2⟩

/-! ### Claim theorems: concrete executions -/

/-- Claim C1: on the `chunkSpan=120`, `numChunks=5` store, after
`Add(100, 1.0)` and `Add(130, 2.0)`, the trusted read `GetSafe(0, 250)`
should return the chunk with start 0 followed by the chunk with start 120.
The code does otherwise: the second `Add` re-enters the first-sample branch
(because `firstStart` was set to the aligned start 0, indistinguishable from
the "never written" sentinel), overwrites slot 0 with a fresh chunk at start
120 without sealing anything, and `GetSafe(0, 250)` then panics
("requested a firstStart that is too old") because
`lastStart - numChunks*chunkSpan` wraps around in `uint32`.  After the two
appends only the `(130, 2)` chunk survives, and the trusted read faults. -/
theorem c1_scenario_faults :
    ((((NewAggMetric "a").Add 100 1).bind (fun p => p.1.Add 130 2)).map
        (fun p => (p.1.chunks, p.1.GetSafe 0 250))) =
      some ([some ⟨120, [(130, 2)], false⟩, none, none, none, none], none) := by
  decide

/-- Claim C2: an accepted append whose aligned start exceeds `lastStart`
should update `lastStart` to that start.  The code seals the old chunk and
creates the new one but never assigns `lastStart`: after `Add(130, 1)` then
`Add(250, 2)` (new chunk at aligned start 240, slot 1), `lastStart` is still
120 instead of 240. -/
theorem c2_lastStart_not_updated :
    ((((NewAggMetric "a").Add 130 1).bind (fun p => p.1.Add 250 2)).map
        (fun p => (p.1.lastStart, p.1.chunks))) =
      some (120,
        [some ⟨120, [(130, 1)], true⟩, some ⟨240, [(250, 2)], false⟩,
         none, none, none]) := by
  decide

/-- Claim C3: after every accepted `Add(ts, val)` the field `lastTs` should
equal `ts`.  The code never assigns `lastTs` anywhere: after the accepted
`Add(100, 1)` on a fresh store, `lastTs` is still 0, not 100. -/
theorem c3_lastTs_never_set :
    (((NewAggMetric "a").Add 100 1).map (fun p => p.1.lastTs)) = some 0 := by
  decide

/-- Claim C4: after appending `ts = 130`, appending `ts2 = 50 ≤ 130` should
leave the whole state unchanged and deliver no signal.  Because the code
never updates `lastTs`, the rejection test `ts <= lastTs` compares against 0:
the out-of-order sample 50 is accepted, it seals the slot-0 chunk, writes a
new chunk into slot 3, and signals the subscribed aggregator. -/
theorem c4_rejection_not_atomic :
    c4S0.Add 130 1 = some (c4S1, [⟨"a", 7, 130⟩]) ∧
    c4S1.Add 50 2 = some (c4S2, [⟨"a", 7, 50⟩]) ∧
    c4S2 ≠ c4S1 := by
  decide

/-- Claim C7: `firstStart` should be set exactly once, by the first accepted
sample, even when that sample's aligned start is 0.  On a fresh store,
`Add(100, 1)` (aligned start 0) leaves `firstStart = 0`, indistinguishable
from the "never written" sentinel, and the later `Add(130, 2)` modifies it
again, to 120. -/
theorem c7_firstStart_reset :
    (((NewAggMetric "a").Add 100 1).map (fun p => p.1.firstStart)) = some 0 ∧
    ((((NewAggMetric "a").Add 100 1).bind (fun p => p.1.Add 130 2)).map
        (fun p => p.1.firstStart)) = some 120 := by
  decide

/-- Claim C5, counterexample: on the store `mState` (`lastStart = 120`,
`numChunks*chunkSpan = 600`), the request `[0, 250)` resolves its lower
bound to `(120 - 600) mod 2^32 = 4294966816` — not to
`max(0 - 0 mod 120, 120 - 600) = 0` as the claim's integer `max` demands. -/
theorem c5_window_not_integer_max :
    ¬ (((mState.requestWindow 0 250).1 : Int) = (specCheckedWindow mState 0 250).1) := by
  decide

/-- Claim C6, counterexample: on the store `mState` the trusted read
`GetSafe(130, 240)` has `from < to`, its aligned window `[120, 120]` starts
no earlier than `lastStart - numChunks*chunkSpan = -480` taken over the
integers, and ends at `120 = lastStart`; so by the claim it must not fault.
The code faults anyway, because the `uint32` value of
`lastStart - numChunks*chunkSpan` wraps to 4294966816. -/
theorem c6_faults_inside_retention :
    mState.GetSafe 130 240 = none ∧
    ¬ ((240 : Nat) ≤ 130 ∨
       ((130 - 130 % mState.chunkSpan : Nat) : Int) <
         (mState.lastStart : Int) - (mState.numChunks : Int) * (mState.chunkSpan : Int) ∨
       ((mState.lastStart : Nat) : Int) < (((240 - 1) - (240 - 1) % mState.chunkSpan : Nat) : Int)) := by
  decide

/-! ### Claim theorems: general properties -/

/-- Claim C8: for every pair of aligned starts, the shared read path
computes `firstSlot = ((firstRequestedStart - firstStart) / chunkSpan) mod
numChunks` (subtraction in the code's `uint32` arithmetic) and `lastSlot`
analogously, and returns one iterator per non-empty candidate slot in
exactly the order `chunks[firstSlot..lastSlot]` when `lastSlot ≥ firstSlot`,
else `chunks[firstSlot..numChunks-1]` followed by `chunks[0..lastSlot]`;
empty slots contribute no iterator and do not disturb the order. -/
theorem c8_shared_slot_resolution (a : AggMetric) (fs ls : Nat)
    (hlen : a.chunks.length = a.numChunks) (hnum : 0 < a.numChunks) :
    a.get fs ls =
      some ((specSlots a.numChunks (wsub fs a.firstStart / a.chunkSpan % a.numChunks)
              (wsub ls a.firstStart / a.chunkSpan % a.numChunks)).filterMap
            (fun i => (a.chunks.getD i none).map Series.iter)) :=
  get_eq_slots a fs ls hlen hnum

/-- Witness for C8 at a concrete store and window: slots 0 and 1 are the
candidates, the empty slot 1 is skipped, one iterator results. -/
theorem c8_witness :
    mState.get 120 240 =
      some ((specSlots mState.numChunks
              (wsub 120 mState.firstStart / mState.chunkSpan % mState.numChunks)
              (wsub 240 mState.firstStart / mState.chunkSpan % mState.numChunks)).filterMap
            (fun i => (mState.chunks.getD i none).map Series.iter)) :=
  c8_shared_slot_resolution mState 120 240 (by decide) (by decide)

/-- Claim C9: an accepted `Add(ts, val)` (one with `ts > lastTs` that does
not fault) delivers exactly one `Signal` per subscribed aggregator, in
subscription order, each carrying this entity's key and `ts`; a rejected
`Add` delivers no signal and leaves the state unchanged. -/
theorem c9_signal_fanout (a : AggMetric) (ts : Nat) (val : Rat) :
    (ts ≤ a.lastTs → a.Add ts val = some (a, [])) ∧
    (∀ a' sigs, a.Add ts val = some (a', sigs) → a.lastTs < ts →
      sigs = a.aggregators.map (fun g => ⟨a.key, g, ts⟩)) := by
  constructor
  · intro h
    simp [AggMetric.Add, h]
  · intro a' sigs h hts
    simp only [AggMetric.Add, if_neg (by omega : ¬ ts ≤ a.lastTs)] at h
    repeat' split at h
    all_goals simp_all [AggMetric.signalAggregators]

/-- Witness for C9: with aggregators `[7]`, the accepted `Add(130, 1)`
signals exactly `Signal(owner="a", 130)` once, and on `c4S1` (whose
`lastTs` is 0) the sample `ts = 0 ≤ lastTs` is rejected with no signal. -/
theorem c9_witness :
    ([⟨"a", 7, 130⟩] : List SignalEvent) =
      c4S0.aggregators.map (fun g => ⟨c4S0.key, g, 130⟩) ∧
    c4S1.Add 0 5 = some (c4S1, []) :=
  ⟨(c9_signal_fanout c4S0 130 1).2 c4S1 [⟨"a", 7, 130⟩] (by decide) (by decide),
   (c9_signal_fanout c4S1 0 5).1 (by decide)⟩

/-- Claim C10: on every store reachable from the constructor, and for every
`from < to`, the untrusted read faults nowhere: every chunk access stays in
bounds and a (possibly empty) iterator list is returned. -/
theorem c10_unchecked_read_crash_free (a : AggMetric) (f t : Nat)
    (ha : Reachable a) (hft : f < t) :
    ∃ l, a.GetUnsafe f t = some (Except.ok l) := by
  obtain ⟨h1, h2, _⟩ := reachable_shape ha
  have hnum : 0 < a.numChunks := by omega
  have hlen : a.chunks.length = a.numChunks := by omega
  obtain ⟨l, hl⟩ : ∃ l, a.get (a.requestWindow f t).1 (a.requestWindow f t).2 = some l :=
    ⟨_, get_eq_slots a (a.requestWindow f t).1 (a.requestWindow f t).2 hlen hnum⟩
  refine ⟨l, ?_⟩
  rw [AggMetric.GetUnsafe, if_neg (by omega : ¬ t ≤ f), hl]
  rfl

/-- Witness for C10: the freshly constructed store is reachable, and the
clamped-to-nonsense window of `GetUnsafe(0, 1)` (whose lower clamp wraps
around `2^32`) still returns without fault. -/
theorem c10_witness :
    ∃ l, (NewAggMetric "k").GetUnsafe 0 1 = some (Except.ok l) :=
  c10_unchecked_read_crash_free (NewAggMetric "k") 0 1 (Reachable.new "k") (by decide)

/-- Claim C5 (amended): the lower clamp of the untrusted read is computed
in `uint32` wrap-around arithmetic; whenever `numChunks*chunkSpan ≤
lastStart` (no underflow) the read resolves exactly the integer-`max`/`min`
window the claim states, and it always succeeds without error for
`from < to`. -/
theorem c5_checked_window (a : AggMetric) (f t : Nat)
    (hft : f < t)
    (hlen : a.chunks.length = a.numChunks) (hnum : 0 < a.numChunks)
    (hW : a.lastStart < W)
    (hret : a.numChunks * a.chunkSpan ≤ a.lastStart) :
    (∃ l, a.GetUnsafe f t = some (Except.ok l)) ∧
    ((a.requestWindow f t).1 : Int) = (specCheckedWindow a f t).1 ∧
    ((a.requestWindow f t).2 : Int) = (specCheckedWindow a f t).2 := by
  have hmul : wmul a.numChunks a.chunkSpan = a.numChunks * a.chunkSpan := by
    simp only [wmul, W] at *
    omega
  have hws : wsub a.lastStart (wmul a.numChunks a.chunkSpan)
      = a.lastStart - a.numChunks * a.chunkSpan := by
    rw [hmul]
    exact wsub_eq_sub hret hW
  refine ⟨?_, ?_, ?_⟩
  · obtain ⟨l, hl⟩ : ∃ l, a.get (a.requestWindow f t).1 (a.requestWindow f t).2 = some l :=
      ⟨_, get_eq_slots a (a.requestWindow f t).1 (a.requestWindow f t).2 hlen hnum⟩
    refine ⟨l, ?_⟩
    rw [AggMetric.GetUnsafe, if_neg (by omega : ¬ t ≤ f), hl]
    rfl
  · have e1 : ((f - f % a.chunkSpan : Nat) : Int)
        = (f : Int) - (f : Int) % (a.chunkSpan : Int) := by
      rw [Nat.cast_sub (Nat.mod_le _ _), Int.natCast_mod]
    have e2 : ((a.lastStart - a.numChunks * a.chunkSpan : Nat) : Int)
        = (a.lastStart : Int) - (a.numChunks : Int) * (a.chunkSpan : Int) := by
      rw [Nat.cast_sub hret]
      push_cast
      ring
    simp only [AggMetric.requestWindow, specCheckedWindow, hws]
    rcases Nat.lt_or_ge (f - f % a.chunkSpan) (a.lastStart - a.numChunks * a.chunkSpan)
      with h | h
    · rw [if_pos h, max_eq_right (by omega : (f : Int) - (f : Int) % (a.chunkSpan : Int)
          ≤ (a.lastStart : Int) - (a.numChunks : Int) * (a.chunkSpan : Int)), e2]
    · rw [if_neg (Nat.not_lt.mpr h), max_eq_left (by omega : (a.lastStart : Int)
          - (a.numChunks : Int) * (a.chunkSpan : Int)
          ≤ (f : Int) - (f : Int) % (a.chunkSpan : Int)), e1]
  · have e3 : ((t - 1 - (t - 1) % a.chunkSpan : Nat) : Int)
        = ((t : Int) - 1) - ((t : Int) - 1) % (a.chunkSpan : Int) := by
      rw [Nat.cast_sub (Nat.mod_le _ _), Int.natCast_mod,
          Nat.cast_sub (by omega : 1 ≤ t)]
      norm_num
    simp only [AggMetric.requestWindow, specCheckedWindow]
    rcases Nat.lt_or_ge a.lastStart (t - 1 - (t - 1) % a.chunkSpan) with h | h
    · rw [if_pos h, min_eq_right (by omega : (a.lastStart : Int)
          ≤ ((t : Int) - 1) - ((t : Int) - 1) % (a.chunkSpan : Int))]
    · rw [if_neg (Nat.not_lt.mpr h), min_eq_left (by omega : ((t : Int) - 1)
          - ((t : Int) - 1) % (a.chunkSpan : Int) ≤ (a.lastStart : Int)), e3]

/-- Witness for C5 on `bigState` (`lastStart = 1200 ≥ 600`): the request
`[0, 250)` succeeds and resolves exactly the integer window
`(max(0, 600), min(240, 1200)) = (600, 240)`. -/
theorem c5_witness :
    (∃ l, bigState.GetUnsafe 0 250 = some (Except.ok l)) ∧
    ((bigState.requestWindow 0 250).1 : Int) = (specCheckedWindow bigState 0 250).1 ∧
    ((bigState.requestWindow 0 250).2 : Int) = (specCheckedWindow bigState 0 250).2 :=
  c5_checked_window bigState 0 250 (by decide) (by decide) (by decide) (by decide) (by decide)

/-- Claim C6 (amended): the trusted read faults exactly when `from ≥ to`,
or the aligned request start falls below `lastStart - numChunks*chunkSpan`
as the code computes it (in `uint32` wrap-around arithmetic), or the
aligned request end exceeds `lastStart`; when none of these hold it returns,
without fault, the iterators of the aligned window. -/
theorem c6_trusted_read_faults_iff (a : AggMetric) (f t : Nat)
    (hlen : a.chunks.length = a.numChunks) (hnum : 0 < a.numChunks) :
    (a.GetSafe f t = none ↔
      (t ≤ f ∨
       f - f % a.chunkSpan < wsub a.lastStart (wmul a.numChunks a.chunkSpan) ∨
       a.lastStart < (t - 1) - (t - 1) % a.chunkSpan)) ∧
    (f < t →
      ¬ (f - f % a.chunkSpan < wsub a.lastStart (wmul a.numChunks a.chunkSpan)) →
      ¬ (a.lastStart < (t - 1) - (t - 1) % a.chunkSpan) →
      a.GetSafe f t = a.get (f - f % a.chunkSpan) ((t - 1) - (t - 1) % a.chunkSpan) ∧
      ∃ l, a.GetSafe f t = some l) := by
  by_cases h1 : t ≤ f
  · constructor
    · simp [AggMetric.GetSafe, h1]
    · omega
  · by_cases h2 : f - f % a.chunkSpan < wsub a.lastStart (wmul a.numChunks a.chunkSpan)
    · constructor
      · simp [AggMetric.GetSafe, h1, h2]
      · intro _ hc
        exact absurd h2 hc
    · by_cases h3 : a.lastStart < (t - 1) - (t - 1) % a.chunkSpan
      · constructor
        · simp [AggMetric.GetSafe, h1, h2, h3]
        · intro _ _ hc
          exact absurd h3 hc
      · obtain ⟨l, hl⟩ : ∃ l,
            a.get (f - f % a.chunkSpan) ((t - 1) - (t - 1) % a.chunkSpan) = some l :=
          ⟨_, get_eq_slots a (f - f % a.chunkSpan) ((t - 1) - (t - 1) % a.chunkSpan) hlen hnum⟩
        have hsafe : a.GetSafe f t
            = a.get (f - f % a.chunkSpan) ((t - 1) - (t - 1) % a.chunkSpan) := by
          simp [AggMetric.GetSafe, h1, h2, h3]
        constructor
        · rw [hsafe, hl]
          simp [h1, h2, h3]
        · exact fun _ _ _ => ⟨hsafe, l, by rw [hsafe, hl]⟩

/-- Witness for C6 on `bigState`: the request `[700, 1250)` (aligned window
`[600, 1200]`, inside retention) does not fault and returns the iterators
of the aligned window. -/
theorem c6_witness :
    (bigState.GetSafe 700 1250 = none ↔
      ((1250 : Nat) ≤ 700 ∨
       700 - 700 % bigState.chunkSpan
         < wsub bigState.lastStart (wmul bigState.numChunks bigState.chunkSpan) ∨
       bigState.lastStart < (1250 - 1) - (1250 - 1) % bigState.chunkSpan)) ∧
    ((700 : Nat) < 1250 →
      ¬ (700 - 700 % bigState.chunkSpan
          < wsub bigState.lastStart (wmul bigState.numChunks bigState.chunkSpan)) →
      ¬ (bigState.lastStart < (1250 - 1) - (1250 - 1) % bigState.chunkSpan) →
      bigState.GetSafe 700 1250
        = bigState.get (700 - 700 % bigState.chunkSpan)
            ((1250 - 1) - (1250 - 1) % bigState.chunkSpan) ∧
      ∃ l, bigState.GetSafe 700 1250 = some l) :=
  c6_trusted_read_faults_iff bigState 700 1250 (by decide) (by decide)
